import Mathlib

/-!
Shallow embedding of `src/app.py`, a Nifty-50 RSI screener.

The script computes over IEEE doubles via pandas/numpy.  Values are modelled
exactly: `RVal` is a rational number (`num`), one of the two infinities that
division by zero produces, or `nan` (pandas' missing-value marker, also the
result of `0/0`).  The arithmetic below follows the IEEE special-value rules
the script's operations exercise; significand rounding is not modelled — the
spec mandates exact arithmetic with rounding only at presentation time.
-/

inductive RVal : Type where
  | nan : RVal
  | inf : RVal
  | neginf : RVal
  | num : ℚ → RVal

deriving instance DecidableEq for RVal

/-- A value is "defined" when it is an actual real number: `nan` (missing) and
the infinities are the non-real sentinels of the float model. -/
def RVal.isNum : RVal → Bool
  | RVal.num _ => true
  | _ => false

/-- IEEE addition on the modelled values. -/
def radd : RVal → RVal → RVal
  | RVal.nan, _ => RVal.nan
  | _, RVal.nan => RVal.nan
  | RVal.inf, RVal.neginf => RVal.nan
  | RVal.neginf, RVal.inf => RVal.nan
  | RVal.inf, _ => RVal.inf
  | _, RVal.inf => RVal.inf
  | RVal.neginf, _ => RVal.neginf
  | _, RVal.neginf => RVal.neginf
  | RVal.num a, RVal.num b => RVal.num (a + b)

/-- IEEE subtraction on the modelled values. -/
def rsub : RVal → RVal → RVal
  | RVal.nan, _ => RVal.nan
  | _, RVal.nan => RVal.nan
  | RVal.inf, RVal.inf => RVal.nan
  | RVal.neginf, RVal.neginf => RVal.nan
  | RVal.inf, _ => RVal.inf
  | _, RVal.inf => RVal.neginf
  | RVal.neginf, _ => RVal.neginf
  | _, RVal.neginf => RVal.inf
  | RVal.num a, RVal.num b => RVal.num (a - b)

/-- IEEE multiplication on the modelled values (`∞ * 0 = nan`). -/
def rmul : RVal → RVal → RVal
  | RVal.nan, _ => RVal.nan
  | _, RVal.nan => RVal.nan
  | RVal.inf, RVal.inf => RVal.inf
  | RVal.inf, RVal.neginf => RVal.neginf
  | RVal.neginf, RVal.inf => RVal.neginf
  | RVal.neginf, RVal.neginf => RVal.inf
  | RVal.inf, RVal.num b => if 0 < b then RVal.inf else if b < 0 then RVal.neginf else RVal.nan
  | RVal.num a, RVal.inf => if 0 < a then RVal.inf else if a < 0 then RVal.neginf else RVal.nan
  | RVal.neginf, RVal.num b => if 0 < b then RVal.neginf else if b < 0 then RVal.inf else RVal.nan
  | RVal.num a, RVal.neginf => if 0 < a then RVal.neginf else if a < 0 then RVal.inf else RVal.nan
  | RVal.num a, RVal.num b => RVal.num (a * b)

/-- IEEE division on the modelled values.  Numpy emits a runtime warning on
`x/0`, not an exception: `x/0 = ±∞` for `x ≠ 0` and `0/0 = nan`.  The rational
`0` models IEEE `+0`; a negative-zero denominator cannot arise in this
program, so the sign rule for zero denominators is the `+0` one. -/
def rdiv : RVal → RVal → RVal
  | RVal.nan, _ => RVal.nan
  | _, RVal.nan => RVal.nan
  | RVal.inf, RVal.inf => RVal.nan
  | RVal.inf, RVal.neginf => RVal.nan
  | RVal.neginf, RVal.inf => RVal.nan
  | RVal.neginf, RVal.neginf => RVal.nan
  | RVal.inf, RVal.num b => if 0 ≤ b then RVal.inf else RVal.neginf
  | RVal.neginf, RVal.num b => if 0 ≤ b then RVal.neginf else RVal.inf
  | RVal.num _, RVal.inf => RVal.num 0
  | RVal.num _, RVal.neginf => RVal.num 0
  | RVal.num a, RVal.num b =>
      if b = 0 then (if 0 < a then RVal.inf else if a < 0 then RVal.neginf else RVal.nan)
      else RVal.num (a / b)

/-- `data.diff()` (line 11): first differences of the price series, with the
missing value `nan` at index 0. -/
def diff (p : List ℚ) : List RVal :=
  (List.range p.length).map (fun i =>
    if i = 0 then RVal.nan else RVal.num (p.getD i 0 - p.getD (i - 1) 0))

/-- `delta.where(delta > 0, 0)` (line 12), pointwise.  pandas `where` keeps an
entry only where the condition holds; `nan > 0` is false, so the missing first
difference is replaced by `0` (not kept as `nan`). -/
def gainOf : RVal → ℚ
  | RVal.num d => if 0 < d then d else 0
  | _ => 0

/-- `-delta.where(delta < 0, 0)` (line 13), pointwise; again `nan < 0` is
false, so the missing first difference becomes `0`. -/
def lossOf : RVal → ℚ
  | RVal.num d => if d < 0 then -d else 0
  | _ => 0

/-- `series.rolling(window=w).mean()` (lines 15-16) on an all-defined series:
entry `i` is `nan` while fewer than `w` samples have been seen (`i < w - 1`),
and otherwise the arithmetic mean of entries `i-w+1 .. i`.  pandas requires
`w ≥ 1`; every use below is under that hypothesis. -/
def rollingMean (window : ℕ) (xs : List ℚ) : List RVal :=
  (List.range xs.length).map (fun i =>
    if i + 1 < window then RVal.nan
    else RVal.num (((xs.drop (i + 1 - window)).take window).sum / (window : ℚ)))

/-- `gain` (line 12) as a series: the loss-free part of the differences. -/
def gain (data : List ℚ) : List ℚ := (diff data).map gainOf

/-- `loss` (line 13) as a series: the gain-free part of the differences. -/
def loss (data : List ℚ) : List ℚ := (diff data).map lossOf

/-- `avg_gain` (line 15): rolling mean of the gains. -/
def avg_gain (data : List ℚ) (window : ℕ) : List RVal := rollingMean window (gain data)

/-- `avg_loss` (line 16): rolling mean of the losses. -/
def avg_loss (data : List ℚ) (window : ℕ) : List RVal := rollingMean window (loss data)

/-- `rs = avg_gain / avg_loss` (line 18), pointwise IEEE division. -/
def rs (data : List ℚ) (window : ℕ) : List RVal :=
  List.zipWith rdiv (avg_gain data window) (avg_loss data window)

/-- `100 - (100 / (1 + rs))` (line 19), pointwise. -/
def rsiStep (r : RVal) : RVal :=
  rsub (RVal.num 100) (rdiv (RVal.num 100) (radd (RVal.num 1) r))

/-- `calculate_rsi` (lines 9-21).  The script's default window is 14; the one
call site passes the default, modelled by passing `14` explicitly. -/
def calculate_rsi (data : List ℚ) (window : ℕ) : List RVal :=
  (rs data window).map rsiStep

/-- Outcome of `ticker.history(period="1mo")` for one symbol: either an
exception during the fetch, or a (possibly empty) series of closing prices. -/
inductive FetchResult : Type where
  | err : FetchResult
  | ok : List ℚ → FetchResult

deriving instance DecidableEq for FetchResult

/-- One element of `stock_data` (lines 71-76). -/
structure StockRecord : Type where
  symbol : String
  CMP : ℚ
  dailyChange : RVal
  RSI : RVal

deriving instance DecidableEq for StockRecord

/-- Python `round(q, 2)`: round to 2 decimal places, ties to even. -/
def roundq2 (q : ℚ) : ℚ :=
  let s : ℚ := q * 100
  let f : ℤ := ⌊s⌋
  let r : ℚ := s - (f : ℚ)
  let n : ℤ := if r < 1 / 2 then f else if 1 / 2 < r then f + 1 else if f % 2 = 0 then f else f + 1
  (n : ℚ) / 100

/-- Python `round(x, 2)` on a float: `nan` and the infinities round to
themselves. -/
def rround2 : RVal → RVal
  | RVal.num q => RVal.num (roundq2 q)
  | v => v

/-- Body of the per-symbol loop of `get_stock_data` (lines 54-82).  `none`
means no record was appended for the symbol: the fetch raised (caught by the
`except` handler), the history was empty (the `if not hist.empty` guard falls
through), or the history has a single row, where `iloc[-2]` raises an
`IndexError` that the handler catches.  With at least two rows no further
statement can raise: numpy division by zero only warns, so the record is
always appended. -/
def processSymbol (fetch : String → FetchResult) (symbol : String) : Option StockRecord :=
  match fetch symbol with
  | FetchResult.err => none
  | FetchResult.ok closes =>
    if closes.isEmpty then none
    else if closes.length < 2 then none
    else
      let cmp : ℚ := closes.getLastD 0
      let prev_close : ℚ := closes.getD (closes.length - 2) 0
      let daily_change : RVal :=
        rmul (rdiv (RVal.num (cmp - prev_close)) (RVal.num prev_close)) (RVal.num 100)
      let rsiLast : RVal := (calculate_rsi closes 14).getLastD RVal.nan
      some ⟨symbol, roundq2 cmp, rround2 daily_change, rround2 rsiLast⟩

/-- `get_stock_data` (lines 49-84): one sequential pass over the symbols,
appending a record per successful symbol.  The `time.sleep` pacing and the
diagnostic prints do not affect the accumulated records. -/
def get_stock_data (fetch : String → FetchResult) (symbols : List String) : List StockRecord :=
  symbols.filterMap (processSymbol fetch)

/-! ### Basic lemmas about the embedding -/

theorem rdiv_nan_left (v : RVal) : rdiv RVal.nan v = RVal.nan := by cases v <;> rfl

theorem rdiv_nan_right (v : RVal) : rdiv v RVal.nan = RVal.nan := by cases v <;> rfl

theorem rsiStep_nan : rsiStep RVal.nan = RVal.nan := rfl

theorem getD_map_range {α : Type} (f : ℕ → α) (n i : ℕ) (d : α) :
    ((List.range n).map f).getD i d = if i < n then f i else d := by
  by_cases h : i < n
  · rw [List.getD_eq_getElem?_getD, List.getElem?_map, List.getElem?_range h]
    simp [h]
  · have hlen : ((List.range n).map f).length ≤ i := by
      simp only [List.length_map, List.length_range]
      omega
    rw [List.getD_eq_getElem?_getD, List.getElem?_eq_none hlen]
    simp [h]

theorem getD_map' {α β : Type} (f : α → β) (l : List α) (i : ℕ) (d₀ : α) (d : β)
    (h : f d₀ = d) : (l.map f).getD i d = f (l.getD i d₀) := by
  rw [List.getD_eq_getElem?_getD, List.getD_eq_getElem?_getD, List.getElem?_map]
  cases l[i]? <;> simp [h.symm]

theorem getD_zipWith' {α β γ : Type} (f : α → β → γ) (xs : List α) (ys : List β)
    (da : α) (db : β) (d : γ) (hlen : xs.length = ys.length) (hd : f da db = d) (i : ℕ) :
    (List.zipWith f xs ys).getD i d = f (xs.getD i da) (ys.getD i db) := by
  rw [List.getD_eq_getElem?_getD, List.getD_eq_getElem?_getD, List.getD_eq_getElem?_getD,
    List.getElem?_zipWith']
  by_cases h : i < xs.length
  · rw [List.getElem?_eq_getElem h, List.getElem?_eq_getElem (by omega : i < ys.length)]
    simp
  · rw [List.getElem?_eq_none (by omega : xs.length ≤ i),
      List.getElem?_eq_none (by omega : ys.length ≤ i)]
    simp [hd]

theorem diff_length (p : List ℚ) : (diff p).length = p.length := by simp [diff]

theorem gain_length (p : List ℚ) : (gain p).length = p.length := by simp [gain, diff_length]

theorem loss_length (p : List ℚ) : (loss p).length = p.length := by simp [loss, diff_length]

theorem rollingMean_length (w : ℕ) (xs : List ℚ) : (rollingMean w xs).length = xs.length := by
  simp [rollingMean]

theorem avg_gain_length (p : List ℚ) (w : ℕ) : (avg_gain p w).length = p.length := by
  simp [avg_gain, rollingMean_length, gain_length]

theorem avg_loss_length (p : List ℚ) (w : ℕ) : (avg_loss p w).length = p.length := by
  simp [avg_loss, rollingMean_length, loss_length]

theorem calculate_rsi_getD (p : List ℚ) (w i : ℕ) :
    (calculate_rsi p w).getD i RVal.nan =
      rsiStep (rdiv ((avg_gain p w).getD i RVal.nan) ((avg_loss p w).getD i RVal.nan)) := by
  unfold calculate_rsi rs
  rw [getD_map' rsiStep _ i RVal.nan RVal.nan rsiStep_nan,
    getD_zipWith' rdiv _ _ RVal.nan RVal.nan RVal.nan
      (by rw [avg_gain_length, avg_loss_length]) (rdiv_nan_left _) i]

theorem rollingMean_getD (w : ℕ) (xs : List ℚ) (i : ℕ) :
    (rollingMean w xs).getD i RVal.nan =
      if i < xs.length then
        (if i + 1 < w then RVal.nan
         else RVal.num (((xs.drop (i + 1 - w)).take w).sum / (w : ℚ)))
      else RVal.nan := by
  unfold rollingMean
  rw [getD_map_range]

theorem gainOf_nonneg (v : RVal) : 0 ≤ gainOf v := by
  cases v with
  | num d =>
    dsimp [gainOf]
    split_ifs with h
    · exact le_of_lt h
    · exact le_refl 0
  | nan => exact le_refl 0
  | inf => exact le_refl 0
  | neginf => exact le_refl 0

theorem lossOf_nonneg (v : RVal) : 0 ≤ lossOf v := by
  cases v with
  | num d =>
    dsimp [lossOf]
    split_ifs with h
    · linarith
    · exact le_refl 0
  | nan => exact le_refl 0
  | inf => exact le_refl 0
  | neginf => exact le_refl 0

theorem gain_nonneg (p : List ℚ) : ∀ x ∈ gain p, 0 ≤ x := by
  intro x hx
  rcases List.mem_map.mp hx with ⟨v, _, rfl⟩
  exact gainOf_nonneg v

theorem loss_nonneg (p : List ℚ) : ∀ x ∈ loss p, 0 ≤ x := by
  intro x hx
  rcases List.mem_map.mp hx with ⟨v, _, rfl⟩
  exact lossOf_nonneg v

theorem rollingMean_getD_cases (w : ℕ) (xs : List ℚ) (hxs : ∀ x ∈ xs, 0 ≤ x) (i : ℕ) :
    (rollingMean w xs).getD i RVal.nan = RVal.nan ∨
      ∃ q, (rollingMean w xs).getD i RVal.nan = RVal.num q ∧ 0 ≤ q := by
  rw [rollingMean_getD]
  by_cases h1 : i < xs.length
  · by_cases h2 : i + 1 < w
    · left
      simp [h1, h2]
    · right
      refine ⟨((xs.drop (i + 1 - w)).take w).sum / (w : ℚ), by simp [h1, h2], ?_⟩
      apply div_nonneg
      · apply List.sum_nonneg
        intro x hx
        exact hxs x (List.mem_of_mem_drop (List.mem_of_mem_take hx))
      · exact Nat.cast_nonneg w
  · left
    simp [h1]

theorem rsiStep_inf : rsiStep RVal.inf = RVal.num 100 := by
  norm_num [rsiStep, radd, rdiv, rsub]

theorem rsiStep_rdiv_num_bounds (g l : ℚ) (hg : 0 ≤ g) (hl : 0 ≤ l) (q : ℚ)
    (h : rsiStep (rdiv (RVal.num g) (RVal.num l)) = RVal.num q) : 0 ≤ q ∧ q ≤ 100 := by
  by_cases hl0 : l = 0
  · subst hl0
    by_cases hg0 : 0 < g
    · rw [show rdiv (RVal.num g) (RVal.num 0) = RVal.inf from by simp [rdiv, hg0],
        rsiStep_inf] at h
      injection h with h
      constructor <;> rw [← h] <;> norm_num
    · have hg0' : g = 0 := le_antisymm (not_lt.mp hg0) hg
      subst hg0'
      rw [show rdiv (RVal.num 0) (RVal.num 0) = RVal.nan from by norm_num [rdiv],
        rsiStep_nan] at h
      exact absurd h (by simp)
  · have hlpos : 0 < l := lt_of_le_of_ne hl (Ne.symm hl0)
    rw [show rdiv (RVal.num g) (RVal.num l) = RVal.num (g / l) from by simp [rdiv, hl0]] at h
    have hr : 0 ≤ g / l := div_nonneg hg hl
    have h1r : (1 : ℚ) + g / l ≠ 0 := by
      have : (0 : ℚ) < 1 + g / l := by linarith
      exact ne_of_gt this
    rw [show rsiStep (RVal.num (g / l)) = RVal.num (100 - 100 / (1 + g / l)) from by
      simp [rsiStep, radd, rdiv, rsub, h1r]] at h
    injection h with h
    rw [← h]
    constructor
    · have hle : 100 / (1 + g / l) ≤ 100 := div_le_self (by norm_num) (by linarith)
      linarith
    · have hge : 0 ≤ 100 / (1 + g / l) := div_nonneg (by norm_num) (by linarith)
      linarith

/-- C1: for the price series [10, 12, 11, 13, 14] with window 3, the RSI
Calculator's output at index 3 equals 80. -/
theorem C1_rsi_example_80 :
    (calculate_rsi [10, 12, 11, 13, 14] 3).getD 3 RVal.nan = RVal.num 80 := by
  norm_num [calculate_rsi, rs, rsiStep, avg_gain, avg_loss, rollingMean, gain, loss, diff,
    gainOf, lossOf, rdiv, radd, rsub, List.range_succ, List.getD]

/-- C2 is false as stated: it is not the case that for every price series and
window w ≥ 1 the first w entries of the RSI output are undefined.  For prices
[10, 12, 11, 13, 14] and window 3, the entry at index 2 = w - 1 is already the
number 200/3: the `where` step turns the undefined first difference into gain
0 and loss 0 rather than an undefined sample, so the rolling averages already
have a full window at index w - 1. -/
theorem C2_counterexample :
    ¬ (∀ (p : List ℚ) (w : ℕ), 1 ≤ w → ∀ i, i < w →
        ((calculate_rsi p w).getD i RVal.nan).isNum = false) := by
  intro h
  have h2 := h [10, 12, 11, 13, 14] 3 (by norm_num) 2 (by norm_num)
  rw [show (calculate_rsi [10, 12, 11, 13, 14] 3).getD 2 RVal.nan = RVal.num (200 / 3) from by
    norm_num [calculate_rsi, rs, rsiStep, avg_gain, avg_loss, rollingMean, gain, loss, diff,
      gainOf, lossOf, rdiv, radd, rsub, List.range_succ, List.getD]] at h2
  exact absurd h2 (by simp [RVal.isNum])

/-- C2 (amended): for every price series and window, the first w - 1 entries
of the RSI output (indices 0 through w - 2) are undefined, because the rolling
average lacks a full window of samples there; the undefined first difference
does not propagate (the `where` step maps it to gain 0 and loss 0), so the
first entry that can be defined is at index w - 1, not w. -/
theorem C2_amended_first_entries_undefined (p : List ℚ) (w i : ℕ) (h : i + 1 < w) :
    (calculate_rsi p w).getD i RVal.nan = RVal.nan := by
  rw [calculate_rsi_getD]
  have hg : (avg_gain p w).getD i RVal.nan = RVal.nan := by
    unfold avg_gain
    rw [rollingMean_getD]
    by_cases h1 : i < (gain p).length <;> simp [h1, h]
  rw [hg, rdiv_nan_left, rsiStep_nan]

theorem C2_amended_witness :
    (calculate_rsi [10, 12, 11, 13, 14] 3).getD 1 RVal.nan = RVal.nan :=
  C2_amended_first_entries_undefined [10, 12, 11, 13, 14] 3 1 (by norm_num)

/-- C3: for every price series and every (pandas-admissible) window w ≥ 1,
every defined entry of the RSI output lies in the closed interval [0, 100]. -/
theorem C3_rsi_bounded (p : List ℚ) (w : ℕ) (hw : 1 ≤ w) (i : ℕ) (q : ℚ)
    (h : (calculate_rsi p w).getD i RVal.nan = RVal.num q) : 0 ≤ q ∧ q ≤ 100 := by
  rw [calculate_rsi_getD] at h
  rcases rollingMean_getD_cases w (gain p) (gain_nonneg p) i with hG | ⟨g, hG, hg⟩
  · rw [show avg_gain p w = rollingMean w (gain p) from rfl, hG, rdiv_nan_left,
      rsiStep_nan] at h
    exact absurd h (by simp)
  · rcases rollingMean_getD_cases w (loss p) (loss_nonneg p) i with hL | ⟨l, hL, hl⟩
    · rw [show avg_loss p w = rollingMean w (loss p) from rfl, hL,
        show avg_gain p w = rollingMean w (gain p) from rfl, hG, rdiv_nan_right,
        rsiStep_nan] at h
      exact absurd h (by simp)
    · rw [show avg_gain p w = rollingMean w (gain p) from rfl, hG,
        show avg_loss p w = rollingMean w (loss p) from rfl, hL] at h
      exact rsiStep_rdiv_num_bounds g l hg hl q h

theorem C3_witness : 0 ≤ (80 : ℚ) ∧ (80 : ℚ) ≤ 100 :=
  C3_rsi_bounded [10, 12, 11, 13, 14] 3 (by norm_num) 3 80 (by
    norm_num [calculate_rsi, rs, rsiStep, avg_gain, avg_loss, rollingMean, gain, loss, diff,
      gainOf, lossOf, rdiv, radd, rsub, List.range_succ, List.getD])

/-- C4: wherever both rolling averages are defined with average loss 0 and
average gain positive, the RSI output equals 100. -/
theorem C4_rsi_100 (p : List ℚ) (w i : ℕ) (g : ℚ)
    (hG : (avg_gain p w).getD i RVal.nan = RVal.num g) (hgpos : 0 < g)
    (hL : (avg_loss p w).getD i RVal.nan = RVal.num 0) :
    (calculate_rsi p w).getD i RVal.nan = RVal.num 100 := by
  rw [calculate_rsi_getD, hG, hL,
    show rdiv (RVal.num g) (RVal.num 0) = RVal.inf from by simp [rdiv, hgpos], rsiStep_inf]

theorem C4_witness : (calculate_rsi [1, 2, 3, 4] 3).getD 3 RVal.nan = RVal.num 100 :=
  C4_rsi_100 [1, 2, 3, 4] 3 3 1
    (by norm_num [avg_gain, rollingMean, gain, diff, gainOf, List.range_succ, List.getD])
    (by norm_num)
    (by norm_num [avg_loss, rollingMean, loss, diff, lossOf, List.range_succ, List.getD])

/-- C5: wherever both rolling averages are defined and both equal 0 (for
instance on a constant price series), the RSI output is the undefined value
`nan`, not a number; the computation is total, so no failure escapes. -/
theorem C5_rsi_flat_undefined (p : List ℚ) (w i : ℕ)
    (hG : (avg_gain p w).getD i RVal.nan = RVal.num 0)
    (hL : (avg_loss p w).getD i RVal.nan = RVal.num 0) :
    (calculate_rsi p w).getD i RVal.nan = RVal.nan := by
  rw [calculate_rsi_getD, hG, hL]
  norm_num [rdiv, rsiStep, radd, rsub]

theorem C5_witness : (calculate_rsi [5, 5, 5, 5] 3).getD 2 RVal.nan = RVal.nan :=
  C5_rsi_flat_undefined [5, 5, 5, 5] 3 2
    (by norm_num [avg_gain, rollingMean, gain, diff, gainOf, List.range_succ, List.getD])
    (by norm_num [avg_loss, rollingMean, loss, diff, lossOf, List.range_succ, List.getD])

/-- C9: at every index i ≥ 1 of the price series, the gain and loss values the
RSI Calculator produces are nonnegative, differ by exactly the first
difference delta[i], and at most one of them is nonzero. -/
theorem C9_gain_loss_split (p : List ℚ) (i : ℕ) (h1 : 1 ≤ i) (h2 : i < p.length) :
    0 ≤ (gain p).getD i 0 ∧ 0 ≤ (loss p).getD i 0 ∧
      (gain p).getD i 0 - (loss p).getD i 0 = p.getD i 0 - p.getD (i - 1) 0 ∧
      ((gain p).getD i 0 = 0 ∨ (loss p).getD i 0 = 0) := by
  have hi0 : i ≠ 0 := by omega
  have hd : (diff p).getD i RVal.nan = RVal.num (p.getD i 0 - p.getD (i - 1) 0) := by
    unfold diff
    rw [getD_map_range]
    simp [h2, hi0]
  have hg : (gain p).getD i 0 = gainOf ((diff p).getD i RVal.nan) := by
    unfold gain
    exact getD_map' gainOf _ i RVal.nan 0 rfl
  have hl : (loss p).getD i 0 = lossOf ((diff p).getD i RVal.nan) := by
    unfold loss
    exact getD_map' lossOf _ i RVal.nan 0 rfl
  rw [hg, hl, hd]
  rcases lt_trichotomy (p.getD i 0 - p.getD (i - 1) 0) 0 with hlt | heq | hgt
  · have hnp : ¬ 0 < p.getD i 0 - p.getD (i - 1) 0 := by linarith
    simp only [gainOf, lossOf, if_pos hlt, if_neg hnp]
    refine ⟨le_refl 0, by linarith, by ring, Or.inl trivial⟩
  · simp only [gainOf, lossOf, heq]
    norm_num
  · have hnn : ¬ p.getD i 0 - p.getD (i - 1) 0 < 0 := by linarith
    simp only [gainOf, lossOf, if_pos hgt, if_neg hnn]
    refine ⟨by linarith, le_refl 0, by ring, Or.inr trivial⟩

theorem C9_witness :
    0 ≤ (gain [10, 12, 11]).getD 2 0 ∧ 0 ≤ (loss [10, 12, 11]).getD 2 0 ∧
      (gain [10, 12, 11]).getD 2 0 - (loss [10, 12, 11]).getD 2 0 =
        ([10, 12, 11] : List ℚ).getD 2 0 - ([10, 12, 11] : List ℚ).getD 1 0 ∧
      ((gain [10, 12, 11]).getD 2 0 = 0 ∨ (loss [10, 12, 11]).getD 2 0 = 0) :=
  C9_gain_loss_split [10, 12, 11] 2 (by norm_num) (by norm_num)

theorem processSymbol_eq_some (fetch : String → FetchResult) (s : String) (closes : List ℚ)
    (hf : fetch s = FetchResult.ok closes) (hlen : 2 ≤ closes.length) :
    processSymbol fetch s =
      some ⟨s, roundq2 (closes.getLastD 0),
        rround2 (rmul (rdiv (RVal.num (closes.getLastD 0 - closes.getD (closes.length - 2) 0))
          (RVal.num (closes.getD (closes.length - 2) 0))) (RVal.num 100)),
        rround2 ((calculate_rsi closes 14).getLastD RVal.nan)⟩ := by
  have hne : closes.isEmpty = false := by
    cases closes with
    | nil => simp at hlen
    | cons a t => rfl
  have hlt : ¬ closes.length < 2 := not_lt.mpr hlen
  simp [processSymbol, hf, hne, hlt]

theorem processSymbol_symbol (fetch : String → FetchResult) (s : String) (r : StockRecord)
    (h : processSymbol fetch s = some r) : r.symbol = s := by
  cases hf : fetch s with
  | err =>
    rw [show processSymbol fetch s = none from by simp [processSymbol, hf]] at h
    exact absurd h (by simp)
  | ok closes =>
    by_cases h2 : 2 ≤ closes.length
    · rw [processSymbol_eq_some fetch s closes hf h2] at h
      injection h with h
      rw [← h]
    · rw [show processSymbol fetch s = none from by
        simp [processSymbol, hf, not_le.mp h2]] at h
      exact absurd h (by simp)

theorem get_stock_data_append_none (fetch : String → FetchResult) (s : String)
    (pre post : List String) (hnone : processSymbol fetch s = none) :
    get_stock_data fetch (pre ++ s :: post) =
      get_stock_data fetch pre ++ get_stock_data fetch post := by
  unfold get_stock_data
  rw [List.filterMap_append]
  simp [List.filterMap_cons, hnone]

theorem get_stock_data_append_some (fetch : String → FetchResult) (s : String)
    (r : StockRecord) (pre post : List String) (hsome : processSymbol fetch s = some r) :
    get_stock_data fetch (pre ++ s :: post) =
      get_stock_data fetch pre ++ r :: get_stock_data fetch post := by
  unfold get_stock_data
  rw [List.filterMap_append]
  simp [List.filterMap_cons, hsome]

/-- C6 is false as stated: a symbol whose fetched series has exactly one point
does not get a result record.  The access to the second-to-last close raises
an IndexError which the per-symbol handler catches, so the symbol is skipped
entirely. -/
theorem C6_counterexample :
    ¬ (∀ (fetch : String → FetchResult) (s : String) (q : ℚ),
        fetch s = FetchResult.ok [q] → (processSymbol fetch s).isSome = true) := by
  intro h
  have h1 := h (fun _ => FetchResult.ok [5]) "A" 5 rfl
  norm_num [processSymbol] at h1

/-- C6 (amended): for every symbol whose fetched series has exactly one point,
the `iloc[-2]` access raises an IndexError that the per-symbol handler
catches: no record is emitted for that symbol, and the run continues with the
remaining symbols unchanged. -/
theorem C6_amended_one_point_skipped (fetch : String → FetchResult) (s : String) (q : ℚ)
    (h : fetch s = FetchResult.ok [q]) :
    processSymbol fetch s = none ∧
      ∀ pre post : List String,
        get_stock_data fetch (pre ++ s :: post) =
          get_stock_data fetch pre ++ get_stock_data fetch post := by
  have hnone : processSymbol fetch s = none := by
    simp [processSymbol, h]
  exact ⟨hnone, fun pre post => get_stock_data_append_none fetch s pre post hnone⟩

theorem C6_witness :
    get_stock_data (fun _ => FetchResult.ok [5]) ["B", "A", "C"] =
      get_stock_data (fun _ => FetchResult.ok [5]) ["B"] ++
        get_stock_data (fun _ => FetchResult.ok [5]) ["C"] :=
  (C6_amended_one_point_skipped (fun _ => FetchResult.ok [5]) "A" 5 rfl).2 ["B"] ["C"]

theorem daily_change_zero_prev_not_num (a : ℚ) :
    (rround2 (rmul (rdiv (RVal.num a) (RVal.num 0)) (RVal.num 100))).isNum = false := by
  rcases lt_trichotomy a 0 with h | h | h
  · rw [show rdiv (RVal.num a) (RVal.num 0) = RVal.neginf from by simp [rdiv, h, h.not_lt]]
    norm_num [rmul, rround2, RVal.isNum]
  · subst h
    rw [show rdiv (RVal.num 0) (RVal.num 0) = RVal.nan from by norm_num [rdiv]]
    norm_num [rmul, rround2, RVal.isNum]
  · rw [show rdiv (RVal.num a) (RVal.num 0) = RVal.inf from by simp [rdiv, h]]
    norm_num [rmul, rround2, RVal.isNum]

/-- C7: for a symbol whose second-to-last closing price is 0, the division by
zero only produces a non-real float (±∞ or nan), never an uncaught error: the
record is still emitted, its daily change is not a real number, its RSI field
is still the (rounded) last RSI Calculator output for the series, and the
remaining symbols are processed exactly as without this symbol. -/
theorem C7_zero_prev_close (fetch : String → FetchResult) (s : String) (closes : List ℚ)
    (hf : fetch s = FetchResult.ok closes) (hlen : 2 ≤ closes.length)
    (hprev : closes.getD (closes.length - 2) 0 = 0) :
    ∃ r : StockRecord,
      processSymbol fetch s = some r ∧
        r.dailyChange.isNum = false ∧
        r.RSI = rround2 ((calculate_rsi closes 14).getLastD RVal.nan) ∧
        ∀ pre post : List String,
          get_stock_data fetch (pre ++ s :: post) =
            get_stock_data fetch pre ++ r :: get_stock_data fetch post := by
  have hps := processSymbol_eq_some fetch s closes hf hlen
  rw [hprev] at hps
  refine ⟨_, hps, ?_, rfl, fun pre post => get_stock_data_append_some fetch s _ pre post hps⟩
  simpa using daily_change_zero_prev_not_num (closes.getLastD 0 - 0)

theorem C7_witness :
    ∃ r : StockRecord,
      processSymbol (fun _ => FetchResult.ok [0, 5]) "Z" = some r ∧
        r.dailyChange.isNum = false ∧
        r.RSI = rround2 ((calculate_rsi [0, 5] 14).getLastD RVal.nan) ∧
        ∀ pre post : List String,
          get_stock_data (fun _ => FetchResult.ok [0, 5]) (pre ++ "Z" :: post) =
            get_stock_data (fun _ => FetchResult.ok [0, 5]) pre ++
              r :: get_stock_data (fun _ => FetchResult.ok [0, 5]) post :=
  C7_zero_prev_close (fun _ => FetchResult.ok [0, 5]) "Z" [0, 5] rfl (by norm_num)
    (by norm_num [List.getD])

/-- C8: a per-symbol fetch failure or an empty fetched series causes exactly
that symbol to be skipped — no record is emitted for it — and the run
continues, returning the records of the symbols before and after it. -/
theorem C8_failure_isolated (fetch : String → FetchResult) (s : String)
    (h : fetch s = FetchResult.err ∨ fetch s = FetchResult.ok []) :
    processSymbol fetch s = none ∧
      ∀ pre post : List String,
        get_stock_data fetch (pre ++ s :: post) =
          get_stock_data fetch pre ++ get_stock_data fetch post := by
  have hnone : processSymbol fetch s = none := by
    rcases h with h | h
    · simp [processSymbol, h]
    · simp [processSymbol, h]
  exact ⟨hnone, fun pre post => get_stock_data_append_none fetch s pre post hnone⟩

theorem C8_witness :
    get_stock_data (fun _ => FetchResult.err) ["B", "E", "C"] =
      get_stock_data (fun _ => FetchResult.err) ["B"] ++
        get_stock_data (fun _ => FetchResult.err) ["C"] :=
  (C8_failure_isolated (fun _ => FetchResult.err) "E" (Or.inl rfl)).2 ["B"] ["C"]

/-- C10: the symbols of the returned records form a sublist of the input
symbol list: each record's symbol is drawn from the input, there is at most
one record per input occurrence, and records appear in the input's relative
order. -/
theorem C10_records_sublist (fetch : String → FetchResult) (symbols : List String) :
    List.Sublist ((get_stock_data fetch symbols).map (fun r => r.symbol)) symbols := by
  induction symbols with
  | nil => simp [get_stock_data]
  | cons s ss ih =>
    unfold get_stock_data
    rw [List.filterMap_cons]
    cases hps : processSymbol fetch s with
    | none =>
      exact List.Sublist.cons s ih
    | some r =>
      have hsym := processSymbol_symbol fetch s r hps
      rw [List.map_cons, hsym]
      exact List.Sublist.cons₂ s ih
